import Mathlib

/-!
Shallow embedding of `src/experimental/erc7821/actions/execute.ts`:
the ERC-7821 `execute` action (execution dispatcher, call-batch encoder
and error resolver) together with the external collaborators it uses.

Bytes are lists of naturals (one per byte); hex strings such as `'0x'`
correspond to `[]`.  External collaborators (ABI function-data encoding,
error-result decoding, the capability probe and transaction submission)
are passed in as function parameters, mirroring the imported modules.
-/

namespace Erc7821

abbrev Bytes := List Nat

abbrev Address := Nat

/-- Opaque identifier standing for an ABI interface description
(the `abi` field of a call). Only its identity matters to this module:
it is handed to the external encoder and decoder collaborators. -/
abbrev AbiDesc := Nat

/-- One requested sub-operation, mirroring the `Call` type used by
`execute`: target `to`, optional interface description `abi` with
`functionName`/`args`, optional raw `data`, optional `value`. -/
structure Call where
  «to» : Address
  abi : Option AbiDesc := none
  functionName : Option String := none
  args : Option (List Nat) := none
  data : Option Bytes := none
  value : Option Nat := none
deriving DecidableEq, Repr

/-- Modelled from the spec: the execution-mode constants live in the
external `constants.js`; the spec describes them as an enumerated
selector distinguishing default batch execution from batch execution
with auxiliary data. -/
inductive ExecutionMode where
  | default
  | opData
deriving DecidableEq, Repr

/-- Line 159: `const mode = opData ? executionMode.opData : executionMode.default`.
`opData` has type `Hex | undefined`; every hex string, including the
empty byte string `'0x'`, is truthy in JavaScript, so the condition is
exactly definedness of `opData`. -/
def chooseMode (opData : Option Bytes) : ExecutionMode :=
  match opData with
  | some _ => ExecutionMode.opData
  | none => ExecutionMode.default

/-- Modelled from the spec: sentinel selector produced by the external
`AbiError.getSelector(AbiError.from('error FnSelectorNotRecognized()'))`,
i.e. the first four bytes of `keccak256("FnSelectorNotRecognized()")`,
which are `0x3c10b94e`. -/
def fnSelectorNotRecognizedSelector : Bytes := [0x3c, 0x10, 0xb9, 0x4e]

/-- A JavaScript error value as seen by the resolver: a tag (identity),
whether it has a `data` property, the value of that property
(`none` models `undefined`), and an optional `cause`. -/
inductive JsError where
  | leaf (tag : Nat) (hasData : Bool) (data : Option Bytes)
  | wrap (tag : Nat) (hasData : Bool) (data : Option Bytes) (cause : JsError)
deriving DecidableEq, Repr

def JsError.dataField : JsError → Option Bytes
  | .leaf _ _ d => d
  | .wrap _ _ d _ => d

/-- Line 184: `(e as BaseError).walk((e) => 'data' in (e as Error))` —
walk the cause chain (the error itself first) and return the first
error object that has a `data` property, or nothing. -/
def walkData : JsError → Option JsError
  | .leaf t h d => if h then some (.leaf t h d) else none
  | .wrap t h d c => if h then some (.wrap t h d c) else walkData c

/-- Lines 195–209: scan the calls in order; a call without an `abi` is
skipped; `matched` is overwritten by every call whose interface decodes
the revert data (the loop has no `break`). `dec a d` models whether the
external `decodeErrorResult` succeeds for interface `a` on data `d`
(a failure is caught and treated as no match). -/
def findMatched (dec : AbiDesc → Bytes → Bool) (calls : List Call) (d : Bytes) :
    Option Call :=
  calls.foldl
    (fun matched c =>
      match c.abi with
      | none => matched
      | some a => if dec a d then some c else matched)
    none

/-- Whether a single call's declared interface decodes the revert data. -/
def matchPred (dec : AbiDesc → Bytes → Bool) (d : Bytes) (c : Call) : Bool :=
  match c.abi with
  | some a => dec a d
  | none => false

/-- Outcome of the catch block of `execute` (lines 183–219). `rethrow e`
is `throw e` of the original failure; `contractError` carries the walked
error together with the matched call's `abi`, `to`, `args` and
`functionName` exactly as passed to `getContractError`. -/
inductive CaughtResult where
  | rethrow (e : JsError)
  | fnSelectorNotRecognized
  | contractError (cause : JsError) (abi : Option AbiDesc) (address : Address)
      (args : Option (List Nat)) (functionName : Option String)
deriving DecidableEq, Repr

/-- Lines 183–219: the error resolver. Walk the cause chain for an error
with a `data` property; if none is found, or its `data` is `undefined`,
rethrow the original failure (`'0x'` itself is a truthy string, so empty
revert data does proceed). If the data equals the sentinel selector,
raise `FunctionSelectorNotRecognizedError`. Otherwise run the matching
loop; with no match rethrow the original failure, else raise the
contextualized contract error for the matched call. -/
def resolveExecuteError (dec : AbiDesc → Bytes → Bool) (calls : List Call)
    (e : JsError) : CaughtResult :=
  match walkData e with
  | none => .rethrow e
  | some err =>
    match err.dataField with
    | none => .rethrow e
    | some d =>
      if d = fnSelectorNotRecognizedSelector then .fnSelectorNotRecognized
      else
        match findMatched dec calls d with
        | none => .rethrow e
        | some c => .contractError err c.abi c.«to» c.args c.functionName

/-! ### The call-batch ABI encoding

Modelled from the spec: the binary layout produced by the external
`AbiParameters.encode` collaborator for the fixed schema
`struct Call { address target; uint256 value; bytes data; }`,
`Call[] calls`, optionally followed by `bytes opData`, per the standard
ABI head/tail encoding the spec's §3 and §6 describe. -/

/-- Big-endian byte expansion, `k` bytes. -/
def beBytes : Nat → Nat → Bytes
  | 0, _ => []
  | k + 1, v => beBytes k (v / 256) ++ [v % 256]

/-- One 32-byte ABI word holding `v` modulo `2 ^ 256`. -/
def word (v : Nat) : Bytes := beBytes 32 (v % 2 ^ 256)

/-- Right-pad a byte string with zeros to a multiple of 32 bytes. -/
def padRight32 (b : Bytes) : Bytes :=
  b ++ List.replicate ((32 - b.length % 32) % 32) 0

/-- ABI encoding of a dynamic `bytes` value: length word then padded
content. -/
def encBytes (b : Bytes) : Bytes := word b.length ++ padRight32 b

/-- One entry of the encoded batch, mirroring the object literal built
at lines 229–233 of `encodeCalls`. -/
structure CallStruct where
  target : Address
  value : Nat
  data : Bytes
deriving DecidableEq, Repr

/-- ABI head/tail sequence in which every component is dynamic: the head
region is one 32-byte offset word per component (offsets are relative to
the start of the head region), followed by the concatenated tails. -/
def encSeqDyn (tails : List Bytes) : Bytes :=
  let n := tails.length
  ((List.range n).map
      (fun i => word (32 * n + (((tails.take i).map List.length).sum)))).flatten
    ++ tails.flatten

/-- ABI encoding of one `Call` struct `(address target, uint256 value,
bytes data)`: the two static words, the offset word (96) of the single
dynamic member, then the encoded `data`. -/
def encCallStruct (c : CallStruct) : Bytes :=
  word (c.target % 2 ^ 160) ++ word c.value ++ word 96 ++ encBytes c.data

/-- ABI encoding of the dynamic array `Call[]`: length word then the
head/tail sequence of the element encodings. -/
def encCallArray (cs : List CallStruct) : Bytes :=
  word cs.length ++ encSeqDyn (cs.map encCallStruct)

/-- Lines 236–243: `AbiParameters.encode` applied to the schema
`['Call[] calls', ...(opData ? ['bytes opData'] : [])]` and the values
`[calls, ...(opData ? [opData] : [])]`; the trailing `bytes` parameter
exists exactly when `opData` is defined (all hex strings are truthy). -/
def encodeAbiParameters (cs : List CallStruct) (opData : Option Bytes) : Bytes :=
  encSeqDyn
    ([encCallArray cs] ++
      (if opData.isSome then [encBytes (opData.getD [])] else []))

/-- Lines 227–234: build one batch entry from a call. `data` is the
interface-based function-data encoding (the external `encodeFunctionData`,
passed in as `efd`) when the call declares an `abi`, else the call's raw
`data`, else `'0x'`; `value` defaults to `0`; `target` is the call's `to`. -/
def toCallStruct (efd : Call → Bytes) (call : Call) : CallStruct :=
  { target := call.«to»
    value := call.value.getD 0
    data :=
      match call.abi with
      | some _ => efd call
      | none => call.data.getD [] }

/-- Lines 223–244: `encodeCalls`. -/
def encodeCalls (efd : Call → Bytes) (calls : List Call) (opData : Option Bytes) :
    Bytes :=
  encodeAbiParameters (calls.map (toCallStruct efd)) opData

/-! ### The execution dispatcher -/

/-- An entry of the `authorizationList` transaction parameter; only its
`contractAddress` is consulted (line 157). -/
structure Authorization where
  contractAddress : Option Address
deriving DecidableEq, Repr

/-- The parameters of `execute` that the dispatcher logic reads. -/
structure ExecuteParameters where
  authorizationList : Option (List Authorization) := none
  address : Address
  calls : List Call
  opData : Option Bytes := none
deriving DecidableEq, Repr

/-- Line 157: `authorizationList?.[0]?.contractAddress ?? parameters.address`. -/
def effectiveAddress (p : ExecuteParameters) : Address :=
  match p.authorizationList with
  | some (a :: _) => a.contractAddress.getD p.address
  | _ => p.address

/-- Observable remote actions of one `execute` invocation, in order:
the capability probe (`supportsExecutionMode` under `withCache`) and the
transaction submission (`sendTransaction`). -/
inductive Action where
  | probe (address : Address) (mode : ExecutionMode)
  | send («to» : Address) (data : Bytes)
deriving DecidableEq, Repr

/-- Result of the external `sendTransaction` collaborator. -/
inductive SendOutcome where
  | success (hash : Bytes)
  | failure (e : JsError)
deriving DecidableEq, Repr

/-- Overall result of `execute`: the pre-flight `ExecuteUnsupportedError`,
a transaction hash, or the outcome of the catch block. -/
inductive ExecuteResult where
  | unsupported
  | success (hash : Bytes)
  | caught (r : CaughtResult)
deriving DecidableEq, Repr

/-- The external collaborators `execute` invokes: `encodeFunctionData`
on a call (`efd`), `encodeFunctionData` for the `execute(mode, batch)`
selector-level call (`encodeExecute`), the capability probe result
(`supported`; `withCache` is transparent to the returned value), the
transaction submitter (`send`) and whether `decodeErrorResult` succeeds
(`dec`). -/
structure Collaborators where
  efd : Call → Bytes
  encodeExecute : ExecutionMode → Bytes → Bytes
  supported : Address → ExecutionMode → Bool
  send : Address → Bytes → SendOutcome
  dec : AbiDesc → Bytes → Bool

/-- Lines 146–220: the dispatcher. Returns the ordered list of remote
actions performed together with the result. The capability probe uses
the effective address (line 157); the submission's `to` is
`parameters.address` (line 176) and its data is the encoded
`execute(mode, encodedCalls)` call (lines 177–181). -/
def execute (K : Collaborators) (p : ExecuteParameters) :
    List Action × ExecuteResult :=
  let address := effectiveAddress p
  let encodedCalls := encodeCalls K.efd p.calls p.opData
  let mode := chooseMode p.opData
  if K.supported address mode then
    let txData := K.encodeExecute mode encodedCalls
    match K.send p.address txData with
    | .success h =>
      ([Action.probe address mode, Action.send p.address txData],
        ExecuteResult.success h)
    | .failure e =>
      ([Action.probe address mode, Action.send p.address txData],
        ExecuteResult.caught (resolveExecuteError K.dec p.calls e))
  else
    ([Action.probe address mode], ExecuteResult.unsupported)

/-! ### Supporting lemmas -/

lemma findAppend {α} (p : α → Bool) (l₁ l₂ : List α) :
    (l₁ ++ l₂).find? p =
      match l₁.find? p with
      | some x => some x
      | none => l₂.find? p := by
  induction l₁ with
  | nil => rfl
  | cons a l ih =>
    by_cases h : p a = true
    · simp [List.find?, h]
    · simp only [List.cons_append, List.find?]
      rw [Bool.not_eq_true] at h
      simp [h, ih]

lemma findMatched_foldl (dec : AbiDesc → Bytes → Bool) (d : Bytes)
    (calls : List Call) : ∀ acc : Option Call,
    calls.foldl
        (fun matched c =>
          match c.abi with
          | none => matched
          | some a => if dec a d then some c else matched)
        acc =
      match calls.reverse.find? (matchPred dec d) with
      | some c => some c
      | none => acc := by
  induction calls with
  | nil => intro acc; rfl
  | cons c cs ih =>
    intro acc
    rw [List.foldl_cons, ih, List.reverse_cons, findAppend]
    cases hf : cs.reverse.find? (matchPred dec d) with
    | some x => rfl
    | none =>
      cases habi : c.abi with
      | none => simp [List.find?, matchPred, habi]
      | some a =>
        by_cases hdec : dec a d = true
        · simp [List.find?, matchPred, habi, hdec]
        · rw [Bool.not_eq_true] at hdec
          simp [List.find?, matchPred, habi, hdec]

/-- The matching loop computes the LAST call in list order whose
interface decodes the revert data, i.e. the first match of the reversed
list. -/
lemma findMatched_eq (dec : AbiDesc → Bytes → Bool) (calls : List Call)
    (d : Bytes) :
    findMatched dec calls d = calls.reverse.find? (matchPred dec d) := by
  rw [findMatched, findMatched_foldl]
  cases calls.reverse.find? (matchPred dec d) <;> rfl

/-! ### Claims -/

/-- C1, counterexample: with revert data decodable against the declared
interfaces of both of two calls, the matching loop declares the SECOND
call matched (the loop keeps overwriting `matched` without breaking), so
the contextualized error carries the second call's target, function name
and arguments, not the first's as the claim requires. -/
theorem C1_counterexample :
    resolveExecuteError (fun _ _ => true)
        [{ «to» := 0xAA, abi := some 1, functionName := some "f1", args := some [1] },
         { «to» := 0xBB, abi := some 2, functionName := some "f2", args := some [2] }]
        (JsError.leaf 7 true (some [0xde, 0xad]))
      = CaughtResult.contractError (JsError.leaf 7 true (some [0xde, 0xad]))
          (some 2) 0xBB (some [2]) (some "f2")
      ∧ (0xBB : Address) ≠ 0xAA := by
  exact ⟨rfl, by decide⟩

/-- C1, amended: when the revert data extracted from the failure's cause
chain is decodable against the declared interfaces of more than one
call, the LAST call in original list order whose interface successfully
decodes the revert data (the first match of the reversed list) is the
one declared matched, and the raised contextualized error carries that
call's target, function name and arguments. -/
theorem C1_last_match (dec : AbiDesc → Bytes → Bool) (calls : List Call)
    (e err : JsError) (d : Bytes) (c : Call)
    (hwalk : walkData e = some err) (hdata : err.dataField = some d)
    (hsent : d ≠ fnSelectorNotRecognizedSelector)
    (hfind : calls.reverse.find? (matchPred dec d) = some c) :
    resolveExecuteError dec calls e =
      CaughtResult.contractError err c.abi c.«to» c.args c.functionName := by
  simp only [resolveExecuteError, hwalk, hdata, if_neg hsent, findMatched_eq,
    hfind]

/-- Witness for `C1_last_match` at a concrete input: the second of two
matching calls is reported. -/
theorem C1_last_match_witness :
    resolveExecuteError (fun _ _ => true)
        [{ «to» := 1, abi := some 5 }, { «to» := 2, abi := some 6 }]
        (JsError.leaf 0 true (some [1, 2, 3]))
      = CaughtResult.contractError (JsError.leaf 0 true (some [1, 2, 3]))
          (some 6) 2 none none :=
  C1_last_match (fun _ _ => true)
    [{ «to» := 1, abi := some 5 }, { «to» := 2, abi := some 6 }]
    (JsError.leaf 0 true (some [1, 2, 3]))
    (JsError.leaf 0 true (some [1, 2, 3]))
    [1, 2, 3] { «to» := 2, abi := some 6 } rfl rfl (by decide) rfl

/-- C2, counterexample: with an authorization list carrying a delegated
contract address `0xBB` distinct from the explicit `address` parameter
`0xAA`, the capability probe targets the effective address `0xBB` while
the transaction is submitted with `to: parameters.address = 0xAA`; the
probe and the submission do not use the same target. -/
theorem C2_counterexample :
    execute
        { efd := fun _ => [], encodeExecute := fun _ b => b,
          supported := fun _ _ => true,
          send := fun _ _ => SendOutcome.success [9],
          dec := fun _ _ => false }
        { authorizationList := some [{ contractAddress := some 0xBB }],
          address := 0xAA, calls := [], opData := none }
      = ([Action.probe 0xBB ExecutionMode.default,
          Action.send 0xAA (encodeCalls (fun _ => []) [] none)],
          ExecuteResult.success [9])
      ∧ effectiveAddress
          { authorizationList := some [{ contractAddress := some 0xBB }],
            address := 0xAA, calls := [], opData := none } = 0xBB
      ∧ (0xAA : Address) ≠ 0xBB := by
  exact ⟨rfl, rfl, by decide⟩

/-- C2, amended: the capability probe uses the effective target (the
authorization list's delegated contract address when present, else the
explicit `address` parameter), while the transaction submission is
always sent to the explicit `address` parameter; the two coincide
whenever no authorization list is supplied. -/
theorem C2_send_to_parameter_address (K : Collaborators)
    (p : ExecuteParameters)
    (h : K.supported (effectiveAddress p) (chooseMode p.opData) = true) :
    (execute K p).1 =
      [Action.probe (effectiveAddress p) (chooseMode p.opData),
       Action.send p.address
         (K.encodeExecute (chooseMode p.opData)
           (encodeCalls K.efd p.calls p.opData))]
    ∧ (p.authorizationList = none → effectiveAddress p = p.address) := by
  constructor
  · rw [execute]
    simp only [h, if_true]
    cases K.send p.address
        (K.encodeExecute (chooseMode p.opData)
          (encodeCalls K.efd p.calls p.opData)) <;> rfl
  · intro ha
    rw [effectiveAddress, ha]

/-- Witness for `C2_send_to_parameter_address` at a concrete input. -/
theorem C2_send_to_parameter_address_witness :
    (execute
        { efd := fun _ => [], encodeExecute := fun _ b => b,
          supported := fun _ _ => true,
          send := fun _ _ => SendOutcome.success [1],
          dec := fun _ _ => true }
        { authorizationList := none, address := 5, calls := [],
          opData := none }).1 =
      [Action.probe 5 ExecutionMode.default,
       Action.send 5 (encodeCalls (fun _ => []) [] none)]
    ∧ ((none : Option (List Authorization)) = none →
        effectiveAddress
          { authorizationList := none, address := 5, calls := [],
            opData := none } = 5) :=
  C2_send_to_parameter_address _ _ rfl

/-- C3, counterexample: with `opData` present but equal to the empty
byte string `'0x'`, the chosen mode is the with-auxiliary-data mode, not
the default mode as the claim requires (every hex string is truthy in
JavaScript, `'0x'` included). -/
theorem C3_counterexample :
    chooseMode (some []) = ExecutionMode.opData
    ∧ ExecutionMode.opData ≠ ExecutionMode.default
    ∧ (execute
          { efd := fun _ => [], encodeExecute := fun _ b => b,
            supported := fun _ _ => false,
            send := fun _ _ => SendOutcome.success [],
            dec := fun _ _ => false }
          { address := 7, calls := [], opData := some [] }).1
        = [Action.probe 7 ExecutionMode.opData] := by
  exact ⟨rfl, by decide, rfl⟩

/-- C3, amended: the chosen execution mode is the with-auxiliary-data
mode exactly when `opData` is present (defined), including when it is
present but empty bytes, and the default mode exactly when `opData` is
absent. -/
theorem C3_mode_iff_opData_defined (o : Option Bytes) :
    (chooseMode o = ExecutionMode.opData ↔ o.isSome = true)
    ∧ (chooseMode o = ExecutionMode.default ↔ o = none) := by
  cases o <;> simp [chooseMode]

/-- C4: the `data` field of the encoded batch entry built for a call is
the interface-based function-call encoding of the call when it declares
an interface description, otherwise the call's raw data bytes when
provided, otherwise empty bytes. -/
theorem C4_entry_data (efd : Call → Bytes) (call : Call) :
    (call.abi.isSome = true → (toCallStruct efd call).data = efd call)
    ∧ (call.abi = none → ∀ d, call.data = some d →
        (toCallStruct efd call).data = d)
    ∧ (call.abi = none → call.data = none →
        (toCallStruct efd call).data = []) := by
  refine ⟨fun h => ?_, fun h d hd => ?_, fun h hd => ?_⟩
  · rcases habi : call.abi with _ | a
    · rw [habi] at h; exact absurd h (by simp)
    · simp [toCallStruct, habi]
  · simp [toCallStruct, h, hd]
  · simp [toCallStruct, h, hd]

/-- Witness for `C4_entry_data`, exercising all three cases at concrete
calls. -/
theorem C4_entry_data_witness :
    (toCallStruct (fun _ => [5]) { «to» := 1, abi := some 0 }).data = [5]
    ∧ (toCallStruct (fun _ => [5]) { «to» := 1, data := some [7] }).data = [7]
    ∧ (toCallStruct (fun _ => [5]) { «to» := 1 }).data = [] :=
  ⟨(C4_entry_data (fun _ => [5]) { «to» := 1, abi := some 0 }).1 rfl,
   (C4_entry_data (fun _ => [5]) { «to» := 1, data := some [7] }).2.1 rfl
     [7] rfl,
   (C4_entry_data (fun _ => [5]) { «to» := 1 }).2.2 rfl rfl⟩

/-- C5: when the capability probe reports the chosen execution mode
unsupported, `execute` performs the probe only — no transaction
submission occurs — and raises `ExecuteUnsupportedError`; the probe
precedes any submission attempt. -/
theorem C5_unsupported_no_send (K : Collaborators) (p : ExecuteParameters)
    (h : K.supported (effectiveAddress p) (chooseMode p.opData) = false) :
    execute K p =
      ([Action.probe (effectiveAddress p) (chooseMode p.opData)],
        ExecuteResult.unsupported)
    ∧ ∀ a ∈ (execute K p).1, ∀ t d, a ≠ Action.send t d := by
  have heq : execute K p =
      ([Action.probe (effectiveAddress p) (chooseMode p.opData)],
        ExecuteResult.unsupported) := by
    rw [execute]
    simp only [h, Bool.false_eq_true, if_false]
  refine ⟨heq, ?_⟩
  rw [heq]
  intro a ha t d
  simp only [List.mem_singleton] at ha
  subst ha
  exact fun hc => Action.noConfusion hc

/-- Witness for `C5_unsupported_no_send` at a concrete input. -/
theorem C5_unsupported_no_send_witness :
    execute
        { efd := fun _ => [], encodeExecute := fun _ b => b,
          supported := fun _ _ => false,
          send := fun _ _ => SendOutcome.success [],
          dec := fun _ _ => false }
        { authorizationList := none, address := 3, calls := [],
          opData := none }
      = ([Action.probe 3 ExecutionMode.default],
          ExecuteResult.unsupported) :=
  (C5_unsupported_no_send
    { efd := fun _ => [], encodeExecute := fun _ b => b,
      supported := fun _ _ => false,
      send := fun _ _ => SendOutcome.success [],
      dec := fun _ _ => false }
    { authorizationList := none, address := 3, calls := [], opData := none }
    rfl).1

/-- C6, counterexample: revert data whose LEADING four bytes match the
sentinel selector but which carries an extra trailing byte does not
trigger the mode-not-recognized error — the comparison at line 190 is
an exact equality, so the resolver proceeds to per-call interface
matching instead. -/
theorem C6_counterexample :
    ([0x3c, 0x10, 0xb9, 0x4e, 0x00].take 4 = fnSelectorNotRecognizedSelector)
    ∧ resolveExecuteError (fun _ _ => true)
          [{ «to» := 3, abi := some 1, functionName := some "g",
             args := some [] }]
          (JsError.leaf 1 true (some [0x3c, 0x10, 0xb9, 0x4e, 0x00]))
        ≠ CaughtResult.fnSelectorNotRecognized := by
  decide

/-- C6, amended: when the extracted revert data EQUALS the sentinel
"function selector not recognized" selector exactly, the resolver
raises the mode-not-recognized error regardless of the contents of the
call list, without attempting per-call interface matching. -/
theorem C6_exact_sentinel (dec : AbiDesc → Bytes → Bool) (calls : List Call)
    (e err : JsError) (hwalk : walkData e = some err)
    (hdata : err.dataField = some fnSelectorNotRecognizedSelector) :
    resolveExecuteError dec calls e = CaughtResult.fnSelectorNotRecognized := by
  simp only [resolveExecuteError, hwalk, hdata, if_pos rfl, if_true]

/-- Witness for `C6_exact_sentinel` at a concrete input. -/
theorem C6_exact_sentinel_witness :
    resolveExecuteError (fun _ _ => true)
        [{ «to» := 3, abi := some 1 }]
        (JsError.leaf 0 true (some [0x3c, 0x10, 0xb9, 0x4e]))
      = CaughtResult.fnSelectorNotRecognized :=
  C6_exact_sentinel (fun _ _ => true) [{ «to» := 3, abi := some 1 }]
    (JsError.leaf 0 true (some [0x3c, 0x10, 0xb9, 0x4e]))
    (JsError.leaf 0 true (some [0x3c, 0x10, 0xb9, 0x4e])) rfl rfl

/-- C7, counterexample: a failure whose revert data equals the sentinel
selector while the call list is empty — so the data decodes against
none of the calls' declared interfaces — is answered with the
mode-not-recognized error, not by re-raising the original failure as
the claim requires. -/
theorem C7_counterexample :
    findMatched (fun _ _ => false) [] [0x3c, 0x10, 0xb9, 0x4e] = none
    ∧ resolveExecuteError (fun _ _ => false) []
          (JsError.leaf 2 true (some [0x3c, 0x10, 0xb9, 0x4e]))
        = CaughtResult.fnSelectorNotRecognized
    ∧ CaughtResult.fnSelectorNotRecognized
        ≠ CaughtResult.rethrow
            (JsError.leaf 2 true (some [0x3c, 0x10, 0xb9, 0x4e])) := by
  decide

/-- C7, amended: when no error object in the cause chain carries
embedded revert data (no `data` property found, or its value is
undefined), or the revert data differs from the sentinel selector and
decodes against none of the calls' declared interfaces, the original
failure is re-raised unchanged — the very same error value, not wrapped
or replaced. -/
theorem C7_rethrow_original (dec : AbiDesc → Bytes → Bool)
    (calls : List Call) (e : JsError) :
    (walkData e = none →
      resolveExecuteError dec calls e = CaughtResult.rethrow e)
    ∧ (∀ err, walkData e = some err → err.dataField = none →
        resolveExecuteError dec calls e = CaughtResult.rethrow e)
    ∧ (∀ err d, walkData e = some err → err.dataField = some d →
        d ≠ fnSelectorNotRecognizedSelector →
        findMatched dec calls d = none →
        resolveExecuteError dec calls e = CaughtResult.rethrow e) := by
  refine ⟨fun h => ?_, fun err hwalk hdata => ?_, fun err d hwalk hdata hs hm => ?_⟩
  · simp only [resolveExecuteError, h]
  · simp only [resolveExecuteError, hwalk, hdata]
  · simp only [resolveExecuteError, hwalk, hdata, if_neg hs, hm]

/-- Witness for `C7_rethrow_original`, exercising all three rethrow
cases at concrete inputs. -/
theorem C7_rethrow_original_witness :
    resolveExecuteError (fun _ _ => false) [] (JsError.leaf 0 false none)
      = CaughtResult.rethrow (JsError.leaf 0 false none)
    ∧ resolveExecuteError (fun _ _ => false) [] (JsError.leaf 1 true none)
      = CaughtResult.rethrow (JsError.leaf 1 true none)
    ∧ resolveExecuteError (fun _ _ => false) [] (JsError.leaf 2 true (some [1]))
      = CaughtResult.rethrow (JsError.leaf 2 true (some [1])) :=
  ⟨(C7_rethrow_original (fun _ _ => false) [] (JsError.leaf 0 false none)).1
     rfl,
   (C7_rethrow_original (fun _ _ => false) [] (JsError.leaf 1 true none)).2.1
     (JsError.leaf 1 true none) rfl rfl,
   (C7_rethrow_original (fun _ _ => false) []
     (JsError.leaf 2 true (some [1]))).2.2 (JsError.leaf 2 true (some [1]))
     [1] rfl rfl (by decide) rfl⟩

/-- C8: the encoded call batch follows the fixed positional schema — a
head/tail sequence whose first component is the `Call[]` array of
`(target, value, data)` structs built from the calls in input order,
followed by a trailing `bytes opData` component exactly when auxiliary
data is present; each entry's target is the call's `to` and its value
is the call's `value`, defaulting to `0` when the call supplies none,
and each struct encodes positionally as address word, value word,
offset word, then the encoded data bytes. -/
theorem C8_batch_schema (efd : Call → Bytes) (calls : List Call)
    (opData : Option Bytes) :
    encodeCalls efd calls opData =
      encSeqDyn ([encCallArray (calls.map (toCallStruct efd))] ++
        (match opData with
         | some d => [encBytes d]
         | none => []))
    ∧ (calls.map (toCallStruct efd)).map CallStruct.target
        = calls.map (fun c => c.«to»)
    ∧ (calls.map (toCallStruct efd)).map CallStruct.value
        = calls.map (fun c => c.value.getD 0)
    ∧ ∀ c : CallStruct,
        encCallStruct c =
          word (c.target % 2 ^ 160) ++ word c.value ++ word 96 ++
            encBytes c.data := by
  refine ⟨?_, ?_, ?_, fun c => rfl⟩
  · cases opData <;> rfl
  · rw [List.map_map]; rfl
  · rw [List.map_map]; rfl

/-- C9: the call-batch encoder is deterministic — two invocations on
the same call list, auxiliary data and collaborator yield identical
output bytes (it is a pure function of its inputs). -/
theorem C9_deterministic (efd : Call → Bytes) (calls : List Call)
    (opData : Option Bytes) :
    encodeCalls efd calls opData = encodeCalls efd calls opData := rfl

/-- C10: on the empty call list with no auxiliary data the encoder does
not fail; it returns the ABI encoding of an empty `Call[]` array — a
single offset word (32) pointing at a zero length word, with no
trailing `opData` component. -/
theorem C10_empty_batch (efd : Call → Bytes) :
    encodeCalls efd [] none = encodeAbiParameters [] none
    ∧ encodeAbiParameters [] none = word 32 ++ word 0
    ∧ encCallArray [] = word 0 := by
  refine ⟨rfl, ?_, ?_⟩ <;> decide

end Erc7821
